import Mathlib

/-!
Verification of the procedural elephant pipeline embedded in this repository
(three.js sources packaged by `src/test2.py`).  Pure fragments of the
JavaScript are shallowly embedded: float arithmetic over exact `ℚ` (or `ℝ`
where trigonometry is involved), `Math.random()` draws passed in as explicit
parameters, and bone tables as total functions from a finite bone enumeration.
-/

namespace Zoo

/-- Locomotion behaviour states of `ElephantLocomotion` (field `this.state`). -/
inductive LocState where
  | idle
  | wander
  | curious
deriving DecidableEq, Repr

/-- State-machine head of `ElephantLocomotion.update(dt)`
(`src/animals/Elephant/ElephantLocomotion.js`): the clock `_stateTime` is
advanced by `dt`, the dwell timer `_stateTimer` decremented by `dt`, and on
expiry (`timer ≤ 0`) the next state is chosen.  The two `Math.random()` draws
of the expiry branch are passed in explicitly: `r` is the draw selecting the
successor of `idle`, `u` the draw fixing the new dwell time.  Returns the new
`(state, _stateTimer, _stateTime)` triple. -/
def locomotionStateStep (state : LocState) (stateTimer stateTime dt r u : ℚ) :
    LocState × ℚ × ℚ :=
  let stateTime := stateTime + dt
  let stateTimer := stateTimer - dt
  if stateTimer ≤ 0 then
    match state with
    | LocState.idle =>
      if r < 0.65 then (LocState.idle, 4 + u * 3, 0)
      else if r < 0.9 then (LocState.wander, 5 + u * 4, 0)
      else (LocState.curious, 3 + u * 2, 0)
    | _ => (LocState.idle, 4 + u * 3, 0)
  else (state, stateTimer, stateTime)

/-- C2: when the dwell timer expires (`stateTimer − dt ≤ 0`) the uniform draw
`r ∈ [0,1)` selects the successor of `idle`: `r < 0.65` stays `idle` with a
fresh dwell in `[4,7]`, `0.65 ≤ r < 0.90` enters `wander` with dwell in
`[5,9]`, otherwise `curious` with dwell in `[3,5]`; from `wander` or `curious`
the successor is always `idle` with dwell in `[4,7]`, regardless of `r`; every
such transition resets the in-state clock to `0`. -/
theorem locomotionStateStep_expiry (stateTimer stateTime dt r u : ℚ)
    (hu0 : 0 ≤ u) (hu1 : u < 1) (hexp : stateTimer - dt ≤ 0) :
    (r < 0.65 →
      locomotionStateStep LocState.idle stateTimer stateTime dt r u =
        (LocState.idle, 4 + u * 3, 0)) ∧
    (0.65 ≤ r → r < 0.9 →
      locomotionStateStep LocState.idle stateTimer stateTime dt r u =
        (LocState.wander, 5 + u * 4, 0)) ∧
    (0.9 ≤ r →
      locomotionStateStep LocState.idle stateTimer stateTime dt r u =
        (LocState.curious, 3 + u * 2, 0)) ∧
    (locomotionStateStep LocState.wander stateTimer stateTime dt r u =
        (LocState.idle, 4 + u * 3, 0)) ∧
    (locomotionStateStep LocState.curious stateTimer stateTime dt r u =
        (LocState.idle, 4 + u * 3, 0)) ∧
    (4 ≤ 4 + u * 3 ∧ 4 + u * 3 ≤ 7) ∧
    (5 ≤ 5 + u * 4 ∧ 5 + u * 4 ≤ 9) ∧
    (3 ≤ 3 + u * 2 ∧ 3 + u * 2 ≤ 5) := by
  refine ⟨?_, ?_, ?_, ?_, ?_, ?_, ?_, ?_⟩
  · intro hr
    simp [locomotionStateStep, hexp, hr]
  · intro hr1 hr2
    simp [locomotionStateStep, hexp, not_lt.mpr hr1, hr2]
  · intro hr
    have h1 : ¬ r < 0.65 := by
      rw [not_lt]
      calc (0.65 : ℚ) ≤ 0.9 := by norm_num
        _ ≤ r := hr
    have h2 : ¬ r < 0.9 := not_lt.mpr hr
    simp [locomotionStateStep, hexp, h1, h2]
  · simp [locomotionStateStep, hexp]
  · simp [locomotionStateStep, hexp]
  · constructor <;> nlinarith
  · constructor <;> nlinarith
  · constructor <;> nlinarith

/-- Witness for `locomotionStateStep_expiry` at concrete inputs: the expired
timer, `r = 0.8`, `u = 0.5` (the spec's own test vector `r = 0.8 → wander`). -/
theorem locomotionStateStep_expiry_witness :
    locomotionStateStep LocState.idle 1 2 3 0.8 0.5 =
      (LocState.wander, 5 + (0.5 : ℚ) * 4, 0) :=
  ((locomotionStateStep_expiry 1 2 3 0.8 0.5 (by norm_num) (by norm_num)
      (by norm_num)).2.1) (by norm_num) (by norm_num)

/-! ## Skin weights (claim C1)

Every part generator pushes per-vertex skin data as a `(skinIndexA, skinIndexB,
0, 0)` / `(wa, wb, 0, 0)` quadruple.  The definitions below reproduce, in
emission order, exactly the `skinWeights.push(...)` quadruples of each
generator; positions/normals/uvs are irrelevant to the weight invariant and
are not carried. -/

/-- One vertex's four skin-weight slots (a `skinWeight` attribute item). -/
abbrev Weight4 := ℚ × ℚ × ℚ × ℚ

/-- Weights pushed for the tube rings of `generateTorsoGeometry`,
`generateLimbGeometry` and `generateTailGeometry`: each of the `rings` rings
pushes `sides` copies of `skinWeights.push(1, 0, 0, 0)` (single-bone
binding). -/
def tubeRingWeights (rings sides : ℕ) : List Weight4 :=
  (List.range rings).flatMap fun _ =>
    (List.range sides).map fun _ => ((1 : ℚ), 0, 0, 0)

/-- Weights pushed by `buildBulgedEndCap` (`LimbGenerator.js`): for each
`seg ∈ [0, segments]` and each of the `sides` rim vertices, the pair
`boneWeightFunc (seg / segments)` goes into the first two slots and the last
two slots are `0`; the final push is the apex vertex's `(1, 0, 0, 0)`. -/
def buildBulgedEndCapWeights (segments sides : ℕ)
    (boneWeightFunc : ℚ → ℚ × ℚ) : List Weight4 :=
  ((List.range (segments + 1)).flatMap fun seg =>
    (List.range sides).map fun _ =>
      let t : ℚ := (seg : ℚ) / (segments : ℚ)
      let w := boneWeightFunc t
      (w.1, w.2, 0, 0))
  ++ [((1 : ℚ), 0, 0, 0)]

/-- Weights pushed by `generateLimbGeometry` after its rings: the shoulder cap
(`capSegments = 2`, `boneWeightFunc = t ⇒ [1 − t, t]`) followed by the tip cap
(`segments = 1`, `boneWeightFunc = t ⇒ [1, 0]`). -/
def limbCapWeights (sides : ℕ) : List Weight4 :=
  buildBulgedEndCapWeights 2 sides (fun t => (1 - t, t)) ++
  buildBulgedEndCapWeights 1 sides (fun t => (1, 0))

/-- Weights pushed by the inline rear/front bulged caps of
`generateTorsoGeometry`: `rearCapSegments = capSegments = 2`, per-segment
`wa = 1 − t`, `wb = t` with `t = seg / 2`, then the apex `(1, 0, 0, 0)`. -/
def torsoBulgedCapWeights (sides : ℕ) : List Weight4 :=
  ((List.range 3).flatMap fun seg =>
    (List.range sides).map fun _ =>
      let t : ℚ := (seg : ℚ) / 2
      (1 - t, t, 0, 0))
  ++ [((1 : ℚ), 0, 0, 0)]

/-- Weights set by `generateHeadGeometry`: the `Float32Array` of `4 · vcount`
weight slots is zero-initialised and only slot `i*4` is set to `1.0`, so every
head vertex carries the quadruple `(1, 0, 0, 0)`. -/
def headSolidWeights (vcount : ℕ) : List Weight4 :=
  (List.range vcount).map fun _ => ((1 : ℚ), 0, 0, 0)

/-- Weights pushed for the rings of `generateNeckGeometry`: full weight on the
first/last chain bone at the end rings, an even `(0.5, 0.5)` split on interior
rings. -/
def neckRingWeights (pointCount sides : ℕ) : List Weight4 :=
  (List.range pointCount).flatMap fun i =>
    (List.range sides).map fun _ =>
      if i = 0 then ((1 : ℚ), 0, 0, 0)
      else if i = pointCount - 1 then ((1 : ℚ), 0, 0, 0)
      else ((0.5 : ℚ), 0.5, 0, 0)

/-- Weights pushed by the head-junction cap of `generateNeckGeometry`: for
`seg = 1, 2` (`capSegments = 2`), `wa = 1 − t`, `wb = t` with `t = seg / 2`,
then the apex `(1, 0, 0, 0)`. -/
def neckCapWeights (sides : ℕ) : List Weight4 :=
  ((List.range 2).flatMap fun s =>
    (List.range sides).map fun _ =>
      let t : ℚ := ((s : ℚ) + 1) / 2
      (1 - t, t, 0, 0))
  ++ [((1 : ℚ), 0, 0, 0)]

/-- C1: every vertex emitted by any part generator (tube rings, bulged end
caps, cap apexes, neck rings and cap, head solid) binds at most the first two
bone slots: the third and fourth weight slots are `0`, and the sum of the
first two weights is exactly `1` — in particular within `1e-5` of `1.0`. -/
theorem skinWeights_sum_one (segments sides rings vcount pointCount : ℕ)
    (hseg : 1 ≤ segments) (w : Weight4)
    (hw : w ∈ tubeRingWeights rings sides ∨
          w ∈ buildBulgedEndCapWeights segments sides (fun t => (1 - t, t)) ∨
          w ∈ limbCapWeights sides ∨
          w ∈ torsoBulgedCapWeights sides ∨
          w ∈ headSolidWeights vcount ∨
          w ∈ neckRingWeights pointCount sides ∨
          w ∈ neckCapWeights sides) :
    w.2.2.1 = 0 ∧ w.2.2.2 = 0 ∧ w.1 + w.2.1 = 1 ∧
      |w.1 + w.2.1 - 1| ≤ 1 / 100000 := by
  have base : w.2.2.1 = 0 ∧ w.2.2.2 = 0 ∧ w.1 + w.2.1 = 1 := by
    rcases hw with h | h | h | h | h | h | h
    · rcases List.mem_flatMap.mp h with ⟨i, -, hi⟩
      rcases List.mem_map.mp hi with ⟨j, -, rfl⟩
      norm_num
    · rcases List.mem_append.mp h with h | h
      · rcases List.mem_flatMap.mp h with ⟨seg, -, hseg2⟩
        rcases List.mem_map.mp hseg2 with ⟨j, -, rfl⟩
        norm_num
      · rcases List.mem_singleton.mp h with rfl
        norm_num
    · rcases List.mem_append.mp h with h | h <;>
        rcases List.mem_append.mp h with h | h
      · rcases List.mem_flatMap.mp h with ⟨seg, -, hseg2⟩
        rcases List.mem_map.mp hseg2 with ⟨j, -, rfl⟩
        norm_num
      · rcases List.mem_singleton.mp h with rfl
        norm_num
      · rcases List.mem_flatMap.mp h with ⟨seg, -, hseg2⟩
        rcases List.mem_map.mp hseg2 with ⟨j, -, rfl⟩
        norm_num
      · rcases List.mem_singleton.mp h with rfl
        norm_num
    · rcases List.mem_append.mp h with h | h
      · rcases List.mem_flatMap.mp h with ⟨seg, -, hseg2⟩
        rcases List.mem_map.mp hseg2 with ⟨j, -, rfl⟩
        norm_num
      · rcases List.mem_singleton.mp h with rfl
        norm_num
    · rcases List.mem_map.mp h with ⟨j, -, rfl⟩
      norm_num
    · rcases List.mem_flatMap.mp h with ⟨i, -, hi⟩
      rcases List.mem_map.mp hi with ⟨j, -, rfl⟩
      split
      · norm_num
      · split <;> norm_num
    · rcases List.mem_append.mp h with h | h
      · rcases List.mem_flatMap.mp h with ⟨s, -, hs⟩
        rcases List.mem_map.mp hs with ⟨j, -, rfl⟩
        norm_num
      · rcases List.mem_singleton.mp h with rfl
        norm_num
  exact ⟨base.1, base.2.1, base.2.2, by rw [base.2.2]; norm_num⟩

/-- Witness for `skinWeights_sum_one`: the cap-interior vertex quadruple
`(1/2, 1/2, 0, 0)` emitted by `buildBulgedEndCap` with `segments = 2` at
`seg = 1` on a 4-sided rim. -/
theorem skinWeights_sum_one_witness :
    ((0.5 : ℚ), (0.5 : ℚ), (0 : ℚ), (0 : ℚ)).2.2.1 = 0 ∧
    ((0.5 : ℚ), (0.5 : ℚ), (0 : ℚ), (0 : ℚ)).2.2.2 = 0 ∧
    ((0.5 : ℚ), (0.5 : ℚ), (0 : ℚ), (0 : ℚ)).1 +
      ((0.5 : ℚ), (0.5 : ℚ), (0 : ℚ), (0 : ℚ)).2.1 = 1 ∧
    |((0.5 : ℚ), (0.5 : ℚ), (0 : ℚ), (0 : ℚ)).1 +
      ((0.5 : ℚ), (0.5 : ℚ), (0 : ℚ), (0 : ℚ)).2.1 - 1| ≤ 1 / 100000 :=
  skinWeights_sum_one 2 4 1 20 2 (by norm_num) _ (Or.inr (Or.inl
    (List.mem_append.mpr (Or.inl (List.mem_flatMap.mpr
      ⟨1, by decide, List.mem_map.mpr ⟨0, by decide, by norm_num⟩⟩)))))

/-! ## Ring geometry (claim C3)

`createRing` / `bridgeRings` from `src/utils/GeometryBuilder.js`.  Vectors are
triples of reals; `vnormalize` mirrors `THREE.Vector3.normalize`, which
divides by `length || 1` and therefore leaves the zero vector unchanged. -/

/-- A 3-component vector (`THREE.Vector3`). -/
abbrev Vec3 := ℝ × ℝ × ℝ

/-- Componentwise vector sum. -/
def vadd (a b : Vec3) : Vec3 := (a.1 + b.1, a.2.1 + b.2.1, a.2.2 + b.2.2)

/-- Componentwise vector difference. -/
def vsub (a b : Vec3) : Vec3 := (a.1 - b.1, a.2.1 - b.2.1, a.2.2 - b.2.2)

/-- Scalar multiple of a vector. -/
def smul (c : ℝ) (v : Vec3) : Vec3 := (c * v.1, c * v.2.1, c * v.2.2)

/-- Cross product (`THREE.Vector3.crossVectors`). -/
def cross (a b : Vec3) : Vec3 :=
  (a.2.1 * b.2.2 - a.2.2 * b.2.1,
   a.2.2 * b.1 - a.1 * b.2.2,
   a.1 * b.2.1 - a.2.1 * b.1)

/-- Dot product. -/
def dot (a b : Vec3) : ℝ := a.1 * b.1 + a.2.1 * b.2.1 + a.2.2 * b.2.2

/-- Squared length (`lengthSq`). -/
def lengthSq (v : Vec3) : ℝ := dot v v

/-- Euclidean length. -/
noncomputable def vlength (v : Vec3) : ℝ := Real.sqrt (lengthSq v)

/-- `THREE.Vector3.normalize`: divide by `length || 1`, so the zero vector is
returned unchanged. -/
noncomputable def vnormalize (v : Vec3) : Vec3 :=
  if vlength v = 0 then v else smul (1 / vlength v) v

/-- `createRing(center, axis, radius, sides, up)`: builds the orthonormal
basis `tangent = normalize(axis × up)` (falling back to `(1,0,0)` when the
cross product is near zero), `bitangent = normalize(axis × tangent)`, and
places `sides` vertices at angles `θ_i = (i / sides) · 2π`. -/
noncomputable def createRing (center axis : Vec3) (radius : ℝ) (sides : ℕ)
    (up : Vec3) : List Vec3 :=
  let tangent0 := vnormalize (cross axis up)
  let tangent := if lengthSq tangent0 < 1e-6 then ((1 : ℝ), 0, 0) else tangent0
  let bitangent := vnormalize (cross axis tangent)
  (List.range sides).map fun i =>
    let theta := ((i : ℝ) / (sides : ℝ)) * Real.pi * 2
    vadd (vadd (smul (Real.cos theta * radius) tangent)
               (smul (Real.sin theta * radius) bitangent)) center

/-- `bridgeRings(ringA, ringB, sides, indices)`: for each segment `j` with
`nextJ = (j+1) % sides`, pushes the index triangles `(a, c, b)` and
`(b, c, d)` where `a = ringA+j`, `b = ringA+nextJ`, `c = ringB+j`,
`d = ringB+nextJ`. -/
def bridgeRings (ringA ringB sides : ℕ) : List (ℕ × ℕ × ℕ) :=
  (List.range sides).flatMap fun j =>
    let nextJ := (j + 1) % sides
    let a := ringA + j
    let b := ringA + nextJ
    let c := ringB + j
    let d := ringB + nextJ
    [(a, c, b), (b, c, d)]

/-- The concrete tube used to test the winding: two 4-sided unit rings on the
`y` axis (centers `(0,0,0)` and `(0,1,0)`), built by `createRing` with the
default up vector `(0,1,0)`, concatenated in `ringA ++ ringB` buffer order. -/
noncomputable def tubeVerts4 : List Vec3 :=
  createRing ((0 : ℝ), 0, 0) ((0 : ℝ), 1, 0) 1 4 ((0 : ℝ), 1, 0) ++
  createRing ((0 : ℝ), 1, 0) ((0 : ℝ), 1, 0) 1 4 ((0 : ℝ), 1, 0)

lemma createRing_y_axis (cy : ℝ) :
    createRing ((0 : ℝ), cy, 0) ((0 : ℝ), 1, 0) 1 4 ((0 : ℝ), 1, 0) =
      [((1 : ℝ), cy, 0), ((0 : ℝ), cy, -1), ((-1 : ℝ), cy, 0),
       ((0 : ℝ), cy, 1)] := by
  have hrange : List.range 4 = [0, 1, 2, 3] := by decide
  have hc1 : Real.cos (1 / 4 * Real.pi * 2) = 0 := by
    rw [show (1 : ℝ) / 4 * Real.pi * 2 = Real.pi / 2 from by ring,
      Real.cos_pi_div_two]
  have hs1 : Real.sin (1 / 4 * Real.pi * 2) = 1 := by
    rw [show (1 : ℝ) / 4 * Real.pi * 2 = Real.pi / 2 from by ring,
      Real.sin_pi_div_two]
  have hc2 : Real.cos (1 / 2 * Real.pi * 2) = -1 := by
    rw [show (1 : ℝ) / 2 * Real.pi * 2 = Real.pi from by ring, Real.cos_pi]
  have hs2 : Real.sin (1 / 2 * Real.pi * 2) = 0 := by
    rw [show (1 : ℝ) / 2 * Real.pi * 2 = Real.pi from by ring, Real.sin_pi]
  have hc3 : Real.cos (3 / 4 * Real.pi * 2) = 0 := by
    rw [show (3 : ℝ) / 4 * Real.pi * 2 = Real.pi / 2 + Real.pi from by ring,
      Real.cos_add]
    simp
  have hs3 : Real.sin (3 / 4 * Real.pi * 2) = -1 := by
    rw [show (3 : ℝ) / 4 * Real.pi * 2 = Real.pi / 2 + Real.pi from by ring,
      Real.sin_add]
    simp
  simp only [createRing, hrange, List.map_cons, List.map_nil]
  norm_num [cross, vnormalize, vlength, lengthSq, dot, smul, vadd,
    Real.sqrt_one, hc1, hs1, hc2, hs2, hc3, hs3, Prod.ext_iff]

lemma tubeVerts4_winding :
    dot (cross (vsub (tubeVerts4.getD 4 ((0:ℝ),0,0)) (tubeVerts4.getD 0 ((0:ℝ),0,0)))
               (vsub (tubeVerts4.getD 1 ((0:ℝ),0,0)) (tubeVerts4.getD 0 ((0:ℝ),0,0))))
        (vsub (tubeVerts4.getD 0 ((0:ℝ),0,0)) ((0:ℝ),0,0)) = -1 := by
  have h : tubeVerts4 =
      [((1 : ℝ), 0, 0), ((0 : ℝ), 0, -1), ((-1 : ℝ), 0, 0), ((0 : ℝ), 0, 1),
       ((1 : ℝ), 1, 0), ((0 : ℝ), 1, -1), ((-1 : ℝ), 1, 0), ((0 : ℝ), 1, 1)] := by
    rw [tubeVerts4, createRing_y_axis 0, createRing_y_axis 1]
    rfl
  rw [h]
  norm_num [List.getD, cross, vsub, dot]

/-- C3 counterexample: on the concrete axis-aligned 4-sided ring pair
`tubeVerts4`, the first triangle emitted by `bridgeRings 0 4 4` is
`(A_0, B_0, A_1) = (0, 4, 1)`, and its counter-clockwise face normal
`(v₁ − v₀) × (v₂ − v₀)` has strictly negative dot product with the outward
normal direction `v₀ − ringCenter` of the ring convention — the emitted
winding faces *into* the tube, not outward as the claim states. -/
theorem bridgeRings_winding_counterexample :
    (bridgeRings 0 4 4).headD (0, 0, 0) = (0, 4, 1) ∧
    dot (cross (vsub (tubeVerts4.getD 4 ((0:ℝ),0,0)) (tubeVerts4.getD 0 ((0:ℝ),0,0)))
               (vsub (tubeVerts4.getD 1 ((0:ℝ),0,0)) (tubeVerts4.getD 0 ((0:ℝ),0,0))))
        (vsub (tubeVerts4.getD 0 ((0:ℝ),0,0)) ((0:ℝ),0,0)) < 0 := by
  constructor
  · decide
  · rw [tubeVerts4_winding]
    norm_num

/-- C3 (amended): for every `sides ≥ 3`, `bridgeRings ringA ringB sides` emits
exactly `2·sides` triangles, two per segment `j` with `k = (j+1) % sides`,
namely `(A_j, B_j, A_k)` and `(A_k, B_j, B_k)`; every ring-A vertex and every
ring-B vertex appears in at least one emitted triangle; but the winding is the
*reverse* of the outward normal convention: on the concrete axis-aligned
4-sided ring pair, the emitted counter-clockwise face normal points toward the
ring center (negative dot with vertex-minus-center). -/
theorem bridgeRings_spec (ringA ringB sides : ℕ) (hs : 3 ≤ sides) :
    (bridgeRings ringA ringB sides).length = 2 * sides ∧
    (∀ j, j < sides →
      (ringA + j, ringB + j, ringA + (j + 1) % sides) ∈
          bridgeRings ringA ringB sides ∧
      (ringA + (j + 1) % sides, ringB + j, ringB + (j + 1) % sides) ∈
          bridgeRings ringA ringB sides) ∧
    (∀ j, j < sides →
      ∃ t ∈ bridgeRings ringA ringB sides, t.1 = ringA + j) ∧
    (∀ j, j < sides →
      ∃ t ∈ bridgeRings ringA ringB sides, t.2.1 = ringB + j) ∧
    dot (cross (vsub (tubeVerts4.getD 4 ((0:ℝ),0,0)) (tubeVerts4.getD 0 ((0:ℝ),0,0)))
               (vsub (tubeVerts4.getD 1 ((0:ℝ),0,0)) (tubeVerts4.getD 0 ((0:ℝ),0,0))))
        (vsub (tubeVerts4.getD 0 ((0:ℝ),0,0)) ((0:ℝ),0,0)) < 0 := by
  have flatMapTwo : ∀ (f : ℕ → List (ℕ × ℕ × ℕ)), (∀ j, (f j).length = 2) →
      ∀ l : List ℕ, (l.flatMap f).length = 2 * l.length := by
    intro f h l
    induction l with
    | nil => rfl
    | cons a t ih =>
      simp only [List.flatMap_cons, List.length_append, List.length_cons, h, ih]
      omega
  refine ⟨?_, ?_, ?_, ?_, ?_⟩
  · rw [bridgeRings]
    have h2 := flatMapTwo (fun j =>
        let nextJ := (j + 1) % sides
        let a := ringA + j
        let b := ringA + nextJ
        let c := ringB + j
        let d := ringB + nextJ
        [(a, c, b), (b, c, d)]) (fun j => rfl) (List.range sides)
    rwa [List.length_range] at h2
  · intro j hj
    constructor
    · exact List.mem_flatMap.mpr ⟨j, List.mem_range.mpr hj, by simp⟩
    · exact List.mem_flatMap.mpr ⟨j, List.mem_range.mpr hj, by simp⟩
  · intro j hj
    exact ⟨(ringA + j, ringB + j, ringA + (j + 1) % sides),
      List.mem_flatMap.mpr ⟨j, List.mem_range.mpr hj, by simp⟩, rfl⟩
  · intro j hj
    exact ⟨(ringA + (j + 1) % sides, ringB + j, ringB + (j + 1) % sides),
      List.mem_flatMap.mpr ⟨j, List.mem_range.mpr hj, by simp⟩, rfl⟩
  · rw [tubeVerts4_winding]
    norm_num

/-- Witness for `bridgeRings_spec` at `ringA = 0`, `ringB = 4`, `sides = 4`:
the bridge emits exactly `2·4 = 8` triangles. -/
theorem bridgeRings_spec_witness : (bridgeRings 0 4 4).length = 2 * 4 :=
  (bridgeRings_spec 0 4 4 (by norm_num)).1

/-! ## Flattening (claim C4)

`makeFlat` (`ElephantGenerator.js`) composes `BufferGeometry.toNonIndexed()` —
which replays the index list, copying each referenced vertex so no vertex is
shared between faces — with `computeVertexNormals()`, which on non-indexed
geometry assigns every vertex of the face `(pA, pB, pC)` starting at entry
`3·i` the same face normal `(pC − pB) × (pA − pB)` (the final renormalisation
step scales each copy identically and is omitted from this exact-arithmetic
model, leaving the three copies equal exactly as in the source). -/

/-- A geometry attribute triple over exact rationals. -/
abbrev QVec3 := ℚ × ℚ × ℚ

/-- Componentwise difference (`subVectors`). -/
def qsub (a b : QVec3) : QVec3 := (a.1 - b.1, a.2.1 - b.2.1, a.2.2 - b.2.2)

/-- Cross product on rational triples. -/
def qcross (a b : QVec3) : QVec3 :=
  (a.2.1 * b.2.2 - a.2.2 * b.2.1,
   a.2.2 * b.1 - a.1 * b.2.2,
   a.1 * b.2.1 - a.2.1 * b.1)

/-- `BufferGeometry.toNonIndexed()`: for each index triangle, emit its three
referenced vertices in order, producing unshared triangle-soup vertices. -/
def toNonIndexed (verts : List QVec3) (tris : List (ℕ × ℕ × ℕ)) :
    List QVec3 :=
  tris.flatMap fun t =>
    [verts.getD t.1 (0, 0, 0), verts.getD t.2.1 (0, 0, 0),
     verts.getD t.2.2 (0, 0, 0)]

/-- `computeVertexNormals()` on non-indexed geometry: per consecutive vertex
triple `(pA, pB, pC)` the face normal `(pC − pB) × (pA − pB)` is written to
all three vertices. -/
def computeVertexNormalsFlat : List QVec3 → List QVec3
  | a :: b :: c :: rest =>
    let n := qcross (qsub c b) (qsub a b)
    n :: n :: n :: computeVertexNormalsFlat rest
  | _ => []

/-- `makeFlat(geometry)`: flat vertex buffer paired with its recomputed
per-vertex (face) normals. -/
def makeFlat (verts : List QVec3) (tris : List (ℕ × ℕ × ℕ)) :
    List QVec3 × List QVec3 :=
  let flat := toNonIndexed verts tris
  (flat, computeVertexNormalsFlat flat)

lemma toNonIndexed_cons (verts : List QVec3) (t : ℕ × ℕ × ℕ)
    (ts : List (ℕ × ℕ × ℕ)) :
    toNonIndexed verts (t :: ts) =
      verts.getD t.1 (0, 0, 0) :: verts.getD t.2.1 (0, 0, 0) ::
        verts.getD t.2.2 (0, 0, 0) :: toNonIndexed verts ts := by
  simp [toNonIndexed]

lemma computeVertexNormalsFlat_cons (a b c : QVec3) (l : List QVec3) :
    computeVertexNormalsFlat (a :: b :: c :: l) =
      qcross (qsub c b) (qsub a b) :: qcross (qsub c b) (qsub a b) ::
        qcross (qsub c b) (qsub a b) :: computeVertexNormalsFlat l := rfl

lemma toNonIndexed_length (verts : List QVec3) (tris : List (ℕ × ℕ × ℕ)) :
    (toNonIndexed verts tris).length = 3 * tris.length := by
  induction tris with
  | nil => rfl
  | cons t ts ih =>
    rw [toNonIndexed_cons]
    simp only [List.length_cons, ih, List.length_cons]
    omega

lemma computeVertexNormalsFlat_length (verts : List QVec3)
    (tris : List (ℕ × ℕ × ℕ)) :
    (computeVertexNormalsFlat (toNonIndexed verts tris)).length =
      3 * tris.length := by
  induction tris with
  | nil => rfl
  | cons t ts ih =>
    rw [toNonIndexed_cons, computeVertexNormalsFlat_cons]
    simp only [List.length_cons, ih, List.length_cons]
    omega

lemma getElem?_cons3 (a b c : QVec3) (l : List QVec3) (k : ℕ) :
    (a :: b :: c :: l)[k + 3]? = l[k]? := by
  rw [show k + 3 = k + 2 + 1 from by omega, List.getElem?_cons_succ,
    show k + 2 = k + 1 + 1 from by omega, List.getElem?_cons_succ,
    List.getElem?_cons_succ]

lemma makeFlat_normals_face (verts : List QVec3) :
    ∀ (tris : List (ℕ × ℕ × ℕ)) (i : ℕ), i < tris.length →
      ∀ t1 t2 t3 : ℕ, tris[i]? = some (t1, t2, t3) →
      ∃ n : QVec3,
        (computeVertexNormalsFlat (toNonIndexed verts tris))[3 * i]? =
          some n ∧
        (computeVertexNormalsFlat (toNonIndexed verts tris))[3 * i + 1]? =
          some n ∧
        (computeVertexNormalsFlat (toNonIndexed verts tris))[3 * i + 2]? =
          some n ∧
        n = qcross
              (qsub (verts.getD t3 (0, 0, 0)) (verts.getD t2 (0, 0, 0)))
              (qsub (verts.getD t1 (0, 0, 0)) (verts.getD t2 (0, 0, 0))) := by
  intro tris
  induction tris with
  | nil =>
    intro i hi
    simp at hi
  | cons t ts ih =>
    intro i hi t1 t2 t3 ht
    rw [toNonIndexed_cons, computeVertexNormalsFlat_cons]
    cases i with
    | zero =>
      rw [List.getElem?_cons_zero] at ht
      obtain rfl : t = (t1, t2, t3) := Option.some.inj ht
      refine ⟨_, ?_, ?_, ?_, rfl⟩ <;> simp
    | succ i =>
      have hi2 : i < ts.length := Nat.lt_of_succ_lt_succ (by simpa using hi)
      rw [List.getElem?_cons_succ] at ht
      obtain ⟨n, h0, h1, h2, hface⟩ := ih i hi2 t1 t2 t3 ht
      refine ⟨n, ?_, ?_, ?_, hface⟩
      · rw [show 3 * (i + 1) = 3 * i + 3 from by ring, getElem?_cons3]
        exact h0
      · rw [show 3 * (i + 1) + 1 = 3 * i + 1 + 3 from by ring, getElem?_cons3]
        exact h1
      · rw [show 3 * (i + 1) + 2 = 3 * i + 2 + 3 from by ring, getElem?_cons3]
        exact h2

/-- C4: flattening an indexed geometry preserves the triangle count, yields a
non-indexed buffer with exactly `3 × triangleCount` vertices (entry `3i+k`,
`k < 3`, belongs to triangle `i` alone — no sharing between triangles), and
gives all three vertices of each triangle `i` one identical recomputed face
normal, namely `(pC − pB) × (pA − pB)` of that triangle's corners. -/
theorem makeFlat_spec (verts : List QVec3) (tris : List (ℕ × ℕ × ℕ)) :
    (makeFlat verts tris).1.length = 3 * tris.length ∧
    (makeFlat verts tris).1.length / 3 = tris.length ∧
    (makeFlat verts tris).2.length = (makeFlat verts tris).1.length ∧
    (∀ i1 k1 i2 k2 : ℕ, k1 < 3 → k2 < 3 → 3 * i1 + k1 = 3 * i2 + k2 →
      i1 = i2 ∧ k1 = k2) ∧
    (∀ (i : ℕ), i < tris.length → ∀ t1 t2 t3 : ℕ,
      tris[i]? = some (t1, t2, t3) →
      ∃ n : QVec3,
        (makeFlat verts tris).2[3 * i]? = some n ∧
        (makeFlat verts tris).2[3 * i + 1]? = some n ∧
        (makeFlat verts tris).2[3 * i + 2]? = some n ∧
        n = qcross
              (qsub (verts.getD t3 (0, 0, 0)) (verts.getD t2 (0, 0, 0)))
              (qsub (verts.getD t1 (0, 0, 0)) (verts.getD t2 (0, 0, 0)))) := by
  refine ⟨toNonIndexed_length verts tris, ?_, ?_, ?_, ?_⟩
  · rw [show (makeFlat verts tris).1 = toNonIndexed verts tris from rfl,
      toNonIndexed_length verts tris]
    omega
  · rw [show (makeFlat verts tris).1 = toNonIndexed verts tris from rfl,
      show (makeFlat verts tris).2 =
        computeVertexNormalsFlat (toNonIndexed verts tris) from rfl,
      toNonIndexed_length verts tris, computeVertexNormalsFlat_length]
  · intro i1 k1 i2 k2 hk1 hk2 heq
    omega
  · intro i hi t1 t2 t3 ht
    exact makeFlat_normals_face verts tris i hi t1 t2 t3 ht

/-- Witness for `makeFlat_spec`: one concrete right triangle; its three
recomputed flat normals all equal `(0, 0, 1)`. -/
theorem makeFlat_spec_witness :
    ∃ n : QVec3,
      (makeFlat [((0 : ℚ), 0, 0), ((1 : ℚ), 0, 0), ((0 : ℚ), 1, 0)]
        [(0, 1, 2)]).2[3 * 0]? = some n ∧
      (makeFlat [((0 : ℚ), 0, 0), ((1 : ℚ), 0, 0), ((0 : ℚ), 1, 0)]
        [(0, 1, 2)]).2[3 * 0 + 1]? = some n ∧
      (makeFlat [((0 : ℚ), 0, 0), ((1 : ℚ), 0, 0), ((0 : ℚ), 1, 0)]
        [(0, 1, 2)]).2[3 * 0 + 2]? = some n ∧
      n = qcross
            (qsub ([((0 : ℚ), 0, 0), ((1 : ℚ), 0, 0), ((0 : ℚ), 1, 0)].getD 2
                (0, 0, 0))
              ([((0 : ℚ), 0, 0), ((1 : ℚ), 0, 0), ((0 : ℚ), 1, 0)].getD 1
                (0, 0, 0)))
            (qsub ([((0 : ℚ), 0, 0), ((1 : ℚ), 0, 0), ((0 : ℚ), 1, 0)].getD 0
                (0, 0, 0))
              ([((0 : ℚ), 0, 0), ((1 : ℚ), 0, 0), ((0 : ℚ), 1, 0)].getD 1
                (0, 0, 0))) :=
  (makeFlat_spec [((0 : ℚ), 0, 0), ((1 : ℚ), 0, 0), ((0 : ℚ), 1, 0)]
    [(0, 1, 2)]).2.2.2.2 0 (by norm_num) 0 1 2 rfl

/-! ## Secondary spring motion (claims C5, C8) and bone lookups (claim C9)

`ElephantLocomotion` looks bones up by name in the behaviour's `this.bones`
map; a missing name yields `undefined` and every pose write is guarded.  The
finite enumeration below lists exactly the bone names referenced by the
per-frame code, and a bone table is modelled by a presence predicate
`PoseBone → Bool` plus a rotation-component map `PoseBone → ℚ`. -/

/-- Bone names referenced by `ElephantLocomotion`'s per-frame code. -/
inductive PoseBone where
  | spine_base
  | spine_mid
  | spine_neck
  | head
  | trunk_base
  | trunk_mid1
  | trunk_mid2
  | trunk_mid
  | trunk_tip
  | ear_left
  | ear_right
  | tail_base
  | tail_mid
  | tail_tip
  | back_left_upper_leg
  | back_left_lower_leg
  | front_left_upper_leg
  | front_left_lower_leg
  | back_right_upper_leg
  | back_right_lower_leg
  | front_right_upper_leg
  | front_right_lower_leg
deriving DecidableEq, Repr

/-- One secondary-motion spring channel (`this._spring.trunk` etc.):
an `{angle, velocity}` pair. -/
structure Spring where
  angle : ℚ
  velocity : ℚ
deriving DecidableEq, Repr

/-- The three spring channels of `this._spring`. -/
structure Springs where
  trunk : Spring
  ears : Spring
  tail : Spring
deriving DecidableEq, Repr

/-- One semi-implicit Euler step of a spring channel, as written in
`applySecondaryMotion`: `acc = (target − angle)·stiffness −
velocity·damping` with `stiffness = 10.0`, `damping = 5.0`;
`velocity += acc·dt`; `angle += velocity·dt`. -/
def springStep (target : ℚ) (s : Spring) (dt : ℚ) : Spring :=
  let acc := (target - s.angle) * 10.0 - s.velocity * 5.0
  let v := s.velocity + acc * dt
  { angle := s.angle + v * dt, velocity := v }

/-- Additive in-place update of one bone's rotation component
(`bone.rotation.y += δ` / `bone.rotation.z += δ`). -/
def addRot (rot : PoseBone → ℚ) (b : PoseBone) (δ : ℚ) : PoseBone → ℚ :=
  fun x => if x = b then rot x + δ else rot x

/-- `ElephantLocomotion.applySecondaryMotion(dt, bones)`: the per-channel
target is `(wanderSpeed if state is wander else 0)` times the channel gain
(`0.4` trunk, `0.3` ears, `0.5` tail); each channel spring is stepped once,
and the resulting angle is *added* to the present chain bones with per-bone
factors `0.7/0.5/0.35/0.2` (trunk base→tip, where the `0.5` write goes to
`trunk_mid1 || trunk_mid`), `+1/−1` (left/right ear), and `0.6/0.4/0.2`
(tail base→tip). -/
def applySecondaryMotion (bones : PoseBone → Bool) (state : LocState)
    (wanderSpeed dt : ℚ) (sp : Springs) (rot : PoseBone → ℚ) :
    Springs × (PoseBone → ℚ) :=
  let speed := if state = LocState.wander then wanderSpeed else 0
  let trunkTarget := speed * 0.4
  let earsTarget := speed * 0.3
  let tailTarget := speed * 0.5
  let sTrunk := springStep trunkTarget sp.trunk dt
  let rot1 := if bones PoseBone.trunk_base then
    addRot rot PoseBone.trunk_base (sTrunk.angle * 0.7) else rot
  let rot2 :=
    if bones PoseBone.trunk_mid1 then
      addRot rot1 PoseBone.trunk_mid1 (sTrunk.angle * 0.5)
    else if bones PoseBone.trunk_mid then
      addRot rot1 PoseBone.trunk_mid (sTrunk.angle * 0.5)
    else rot1
  let rot3 := if bones PoseBone.trunk_mid2 then
    addRot rot2 PoseBone.trunk_mid2 (sTrunk.angle * 0.35) else rot2
  let rot4 := if bones PoseBone.trunk_tip then
    addRot rot3 PoseBone.trunk_tip (sTrunk.angle * 0.2) else rot3
  let sEars := springStep earsTarget sp.ears dt
  let rot5 := if bones PoseBone.ear_left then
    addRot rot4 PoseBone.ear_left sEars.angle else rot4
  let rot6 := if bones PoseBone.ear_right then
    addRot rot5 PoseBone.ear_right (-sEars.angle) else rot5
  let sTail := springStep tailTarget sp.tail dt
  let rot7 := if bones PoseBone.tail_base then
    addRot rot6 PoseBone.tail_base (sTail.angle * 0.6) else rot6
  let rot8 := if bones PoseBone.tail_mid then
    addRot rot7 PoseBone.tail_mid (sTail.angle * 0.4) else rot7
  let rot9 := if bones PoseBone.tail_tip then
    addRot rot8 PoseBone.tail_tip (sTail.angle * 0.2) else rot8
  ({ trunk := sTrunk, ears := sEars, tail := sTail }, rot9)

/-- The full bone table of the built elephant: every referenced bone present. -/
def allBones : PoseBone → Bool := fun _ => true

/-- C5: per frame and channel, `applySecondaryMotion` computes the target as
`(wanderSpeed if state is wander, else 0)` times the channel gain, advances
the spring by `acc = (target − angle)·10 − velocity·5; velocity += acc·dt;
angle += velocity·dt` (semi-implicit Euler), and *adds* the resulting channel
angle to each chain bone's rotation with fractional per-bone factors that
decay from the chain root to its tip (`0.7 > 0.5 > 0.35 > 0.2` for the trunk,
`0.6 > 0.4 > 0.2` for the tail, magnitude `1` at the ear roots with the right
ear mirrored), never replacing the rotation already set that frame. -/
theorem applySecondaryMotion_spec (state : LocState) (ws dt : ℚ)
    (sp : Springs) (rot : PoseBone → ℚ) :
    (applySecondaryMotion allBones state ws dt sp rot).1.trunk =
      springStep ((if state = LocState.wander then ws else 0) * 0.4)
        sp.trunk dt ∧
    (applySecondaryMotion allBones state ws dt sp rot).1.ears =
      springStep ((if state = LocState.wander then ws else 0) * 0.3)
        sp.ears dt ∧
    (applySecondaryMotion allBones state ws dt sp rot).1.tail =
      springStep ((if state = LocState.wander then ws else 0) * 0.5)
        sp.tail dt ∧
    (∀ tgt s d, (springStep tgt s d).velocity =
        s.velocity + ((tgt - s.angle) * 10 - s.velocity * 5) * d ∧
      (springStep tgt s d).angle =
        s.angle + (springStep tgt s d).velocity * d) ∧
    (applySecondaryMotion allBones state ws dt sp rot).2 PoseBone.trunk_base =
      rot PoseBone.trunk_base +
        (applySecondaryMotion allBones state ws dt sp rot).1.trunk.angle * 0.7 ∧
    (applySecondaryMotion allBones state ws dt sp rot).2 PoseBone.trunk_mid1 =
      rot PoseBone.trunk_mid1 +
        (applySecondaryMotion allBones state ws dt sp rot).1.trunk.angle * 0.5 ∧
    (applySecondaryMotion allBones state ws dt sp rot).2 PoseBone.trunk_mid2 =
      rot PoseBone.trunk_mid2 +
        (applySecondaryMotion allBones state ws dt sp rot).1.trunk.angle * 0.35 ∧
    (applySecondaryMotion allBones state ws dt sp rot).2 PoseBone.trunk_tip =
      rot PoseBone.trunk_tip +
        (applySecondaryMotion allBones state ws dt sp rot).1.trunk.angle * 0.2 ∧
    (applySecondaryMotion allBones state ws dt sp rot).2 PoseBone.ear_left =
      rot PoseBone.ear_left +
        (applySecondaryMotion allBones state ws dt sp rot).1.ears.angle ∧
    (applySecondaryMotion allBones state ws dt sp rot).2 PoseBone.ear_right =
      rot PoseBone.ear_right -
        (applySecondaryMotion allBones state ws dt sp rot).1.ears.angle ∧
    (applySecondaryMotion allBones state ws dt sp rot).2 PoseBone.tail_base =
      rot PoseBone.tail_base +
        (applySecondaryMotion allBones state ws dt sp rot).1.tail.angle * 0.6 ∧
    (applySecondaryMotion allBones state ws dt sp rot).2 PoseBone.tail_mid =
      rot PoseBone.tail_mid +
        (applySecondaryMotion allBones state ws dt sp rot).1.tail.angle * 0.4 ∧
    (applySecondaryMotion allBones state ws dt sp rot).2 PoseBone.tail_tip =
      rot PoseBone.tail_tip +
        (applySecondaryMotion allBones state ws dt sp rot).1.tail.angle * 0.2 ∧
    (applySecondaryMotion allBones state ws dt sp rot).2 PoseBone.trunk_mid =
      rot PoseBone.trunk_mid ∧
    (applySecondaryMotion allBones state ws dt sp rot).2 PoseBone.spine_mid =
      rot PoseBone.spine_mid ∧
    ((0.7 : ℚ) > 0.5 ∧ (0.5 : ℚ) > 0.35 ∧ (0.35 : ℚ) > 0.2 ∧
      (0.6 : ℚ) > 0.4 ∧ (0.4 : ℚ) > 0.2) := by
  refine ⟨rfl, rfl, rfl, fun tgt s d => ⟨by norm_num [springStep], rfl⟩,
      ?_, ?_, ?_, ?_, ?_, ?_, ?_, ?_, ?_, ?_, ?_, by norm_num⟩ <;>
    simp [applySecondaryMotion, addRot, allBones] <;> try ring

/-! ## Missing-bone tolerance (claim C9)

For claim C9 only the *guard structure* of `ElephantLocomotion.update` and of
the pose helpers matters: which bones get written, under which presence
checks, and whether the rest of the update still runs.  Each definition below
returns, for a presence predicate `bones : PoseBone → Bool`, the list of bones
whose `position`/`rotation` the corresponding source function writes, with the
source's exact `if (bone)` guards; numeric values are irrelevant and omitted. -/

/-- Bones written by `updateIdle(dt, root, bones)`: the root (`spine_base`,
already checked by `update`) unconditionally, then `spine_mid`, `spine_neck`
and `head` each under its own presence guard. -/
def updateIdleWrites (bones : PoseBone → Bool) : List PoseBone :=
  [PoseBone.spine_base] ++
  (if bones PoseBone.spine_mid then [PoseBone.spine_mid] else []) ++
  (if bones PoseBone.spine_neck then [PoseBone.spine_neck] else []) ++
  (if bones PoseBone.head then [PoseBone.head] else [])

/-- Bones written by `applyWalkPose(phase, bones)`: each leg writes its
upper/lower pair only when *both* are present (`if (blUpper && blLower)`),
then `spine_mid`, `spine_neck`, `head` each under its own guard. -/
def applyWalkPoseWrites (bones : PoseBone → Bool) : List PoseBone :=
  (if bones PoseBone.back_left_upper_leg && bones PoseBone.back_left_lower_leg
    then [PoseBone.back_left_upper_leg, PoseBone.back_left_lower_leg] else []) ++
  (if bones PoseBone.front_left_upper_leg && bones PoseBone.front_left_lower_leg
    then [PoseBone.front_left_upper_leg, PoseBone.front_left_lower_leg] else []) ++
  (if bones PoseBone.back_right_upper_leg && bones PoseBone.back_right_lower_leg
    then [PoseBone.back_right_upper_leg, PoseBone.back_right_lower_leg] else []) ++
  (if bones PoseBone.front_right_upper_leg && bones PoseBone.front_right_lower_leg
    then [PoseBone.front_right_upper_leg, PoseBone.front_right_lower_leg] else []) ++
  (if bones PoseBone.spine_mid then [PoseBone.spine_mid] else []) ++
  (if bones PoseBone.spine_neck then [PoseBone.spine_neck] else []) ++
  (if bones PoseBone.head then [PoseBone.head] else [])

/-- Bones written by `applyTrunkWalk(bones, t, phase)`: early return when all
three of `trunk_base`/`trunk_mid`/`trunk_tip` are absent, otherwise each
present bone is written. -/
def applyTrunkWalkWrites (bones : PoseBone → Bool) : List PoseBone :=
  if !bones PoseBone.trunk_base && !bones PoseBone.trunk_mid &&
      !bones PoseBone.trunk_tip then []
  else
    (if bones PoseBone.trunk_base then [PoseBone.trunk_base] else []) ++
    (if bones PoseBone.trunk_mid then [PoseBone.trunk_mid] else []) ++
    (if bones PoseBone.trunk_tip then [PoseBone.trunk_tip] else [])

/-- Bones written by `applyEarWalk(bones, t, phase)`: early return when both
ears are absent, otherwise each present ear is written. -/
def applyEarWalkWrites (bones : PoseBone → Bool) : List PoseBone :=
  if !bones PoseBone.ear_left && !bones PoseBone.ear_right then []
  else
    (if bones PoseBone.ear_left then [PoseBone.ear_left] else []) ++
    (if bones PoseBone.ear_right then [PoseBone.ear_right] else [])

/-- Bones written by `updateWalk` (used by the `wander` state): the root's
heading/bob/roll writes, then the walk pose, trunk sway and ear flap. -/
def updateWalkWrites (bones : PoseBone → Bool) : List PoseBone :=
  [PoseBone.spine_base] ++ applyWalkPoseWrites bones ++
  applyTrunkWalkWrites bones ++ applyEarWalkWrites bones

/-- Bones written by `updateCurious(dt, root, bones)`: root unconditionally,
then each guarded bone (`spine_neck`, `head`, the `trunk_base`/`trunk_mid`/
`trunk_tip` lift, and both ears). -/
def updateCuriousWrites (bones : PoseBone → Bool) : List PoseBone :=
  [PoseBone.spine_base] ++
  (if bones PoseBone.spine_neck then [PoseBone.spine_neck] else []) ++
  (if bones PoseBone.head then [PoseBone.head] else []) ++
  (if bones PoseBone.trunk_base then [PoseBone.trunk_base] else []) ++
  (if bones PoseBone.trunk_mid then [PoseBone.trunk_mid] else []) ++
  (if bones PoseBone.trunk_tip then [PoseBone.trunk_tip] else []) ++
  (if bones PoseBone.ear_left then [PoseBone.ear_left] else []) ++
  (if bones PoseBone.ear_right then [PoseBone.ear_right] else [])

/-- Bones written by `applySecondaryMotion(dt, bones)`: each spring chain bone
under its guard, with the `trunk_mid1 || trunk_mid` fallback of the source. -/
def applySecondaryMotionWrites (bones : PoseBone → Bool) : List PoseBone :=
  (if bones PoseBone.trunk_base then [PoseBone.trunk_base] else []) ++
  (if bones PoseBone.trunk_mid1 then [PoseBone.trunk_mid1]
    else if bones PoseBone.trunk_mid then [PoseBone.trunk_mid] else []) ++
  (if bones PoseBone.trunk_mid2 then [PoseBone.trunk_mid2] else []) ++
  (if bones PoseBone.trunk_tip then [PoseBone.trunk_tip] else []) ++
  (if bones PoseBone.ear_left then [PoseBone.ear_left] else []) ++
  (if bones PoseBone.ear_right then [PoseBone.ear_right] else []) ++
  (if bones PoseBone.tail_base then [PoseBone.tail_base] else []) ++
  (if bones PoseBone.tail_mid then [PoseBone.tail_mid] else []) ++
  (if bones PoseBone.tail_tip then [PoseBone.tail_tip] else [])

/-- `ElephantLocomotion.update(dt)`, observed at guard granularity: the guard
`if (!bones || !root || !mesh) return;` aborts the whole call when the root
bone `spine_base` is absent; otherwise the state machine and dwell logic run
(`ran = true`), the active state's pose writes happen, and
`applySecondaryMotion` runs last.  Returns `(ran, bones written)`. -/
def locomotionUpdateTouches (bones : PoseBone → Bool) (state : LocState) :
    Bool × List PoseBone :=
  if bones PoseBone.spine_base then
    (true,
      (match state with
        | LocState.wander => updateWalkWrites bones
        | LocState.curious => updateCuriousWrites bones
        | LocState.idle => updateIdleWrites bones) ++
      applySecondaryMotionWrites bones)
  else (false, [])

/-- The bone table with only the root `spine_base` missing. -/
def bonesWithoutRoot : PoseBone → Bool :=
  fun b => match b with
  | PoseBone.spine_base => false
  | _ => true

/-- C9 counterexample: with every bone present except `spine_base` — a spine
bone used by the pose synthesis — `ElephantLocomotion.update` returns at its
opening guard: the state machine, pose channels and spring motion do *not*
run (`ran = false`, nothing written), contradicting the claim that the rest
of the update still completes whenever a pose bone is absent. -/
theorem locomotionUpdate_missingRoot_counterexample :
    locomotionUpdateTouches bonesWithoutRoot LocState.idle = (false, []) := by
  rfl

lemma mem_guard_one {bones : PoseBone → Bool} {x b : PoseBone}
    (hb : b ∈ (if bones x = true then [x] else [])) : bones b = true := by
  by_cases h : bones x = true
  · rw [if_pos h] at hb
    rcases List.mem_singleton.mp hb with rfl
    exact h
  · rw [if_neg h] at hb
    exact absurd hb (List.not_mem_nil b)

lemma mem_guard_pair {bones : PoseBone → Bool} {x y b : PoseBone}
    (hb : b ∈ (if bones x && bones y then [x, y] else [])) :
    bones b = true := by
  by_cases h : (bones x && bones y) = true
  · rw [if_pos h] at hb
    rcases Bool.and_eq_true_iff.mp h with ⟨hx, hy⟩
    rcases List.mem_cons.mp hb with rfl | hb
    · exact hx
    · rcases List.mem_singleton.mp hb with rfl
      exact hy
  · rw [if_neg h] at hb
    exact absurd hb (List.not_mem_nil b)

lemma updateIdleWrites_present {bones : PoseBone → Bool} {b : PoseBone}
    (hroot : bones PoseBone.spine_base = true)
    (hb : b ∈ updateIdleWrites bones) : bones b = true := by
  rcases List.mem_append.mp hb with hb | hb
  · rcases List.mem_append.mp hb with hb | hb
    · rcases List.mem_append.mp hb with hb | hb
      · rcases List.mem_singleton.mp hb with rfl
        exact hroot
      · exact mem_guard_one hb
    · exact mem_guard_one hb
  · exact mem_guard_one hb

lemma applyWalkPoseWrites_present {bones : PoseBone → Bool} {b : PoseBone}
    (hb : b ∈ applyWalkPoseWrites bones) : bones b = true := by
  rcases List.mem_append.mp hb with hb | hb
  · rcases List.mem_append.mp hb with hb | hb
    · rcases List.mem_append.mp hb with hb | hb
      · rcases List.mem_append.mp hb with hb | hb
        · rcases List.mem_append.mp hb with hb | hb
          · rcases List.mem_append.mp hb with hb | hb
            · exact mem_guard_pair hb
            · exact mem_guard_pair hb
          · exact mem_guard_pair hb
        · exact mem_guard_pair hb
      · exact mem_guard_one hb
    · exact mem_guard_one hb
  · exact mem_guard_one hb

lemma applyTrunkWalkWrites_present {bones : PoseBone → Bool} {b : PoseBone}
    (hb : b ∈ applyTrunkWalkWrites bones) : bones b = true := by
  rw [applyTrunkWalkWrites] at hb
  split at hb
  · exact absurd hb (List.not_mem_nil b)
  · rcases List.mem_append.mp hb with hb | hb
    · rcases List.mem_append.mp hb with hb | hb
      · exact mem_guard_one hb
      · exact mem_guard_one hb
    · exact mem_guard_one hb

lemma applyEarWalkWrites_present {bones : PoseBone → Bool} {b : PoseBone}
    (hb : b ∈ applyEarWalkWrites bones) : bones b = true := by
  rw [applyEarWalkWrites] at hb
  split at hb
  · exact absurd hb (List.not_mem_nil b)
  · rcases List.mem_append.mp hb with hb | hb
    · exact mem_guard_one hb
    · exact mem_guard_one hb

lemma updateWalkWrites_present {bones : PoseBone → Bool} {b : PoseBone}
    (hroot : bones PoseBone.spine_base = true)
    (hb : b ∈ updateWalkWrites bones) : bones b = true := by
  rcases List.mem_append.mp hb with hb | hb
  · rcases List.mem_append.mp hb with hb | hb
    · rcases List.mem_append.mp hb with hb | hb
      · rcases List.mem_singleton.mp hb with rfl
        exact hroot
      · exact applyWalkPoseWrites_present hb
    · exact applyTrunkWalkWrites_present hb
  · exact applyEarWalkWrites_present hb

lemma updateCuriousWrites_present {bones : PoseBone → Bool} {b : PoseBone}
    (hroot : bones PoseBone.spine_base = true)
    (hb : b ∈ updateCuriousWrites bones) : bones b = true := by
  rcases List.mem_append.mp hb with hb | hb
  · rcases List.mem_append.mp hb with hb | hb
    · rcases List.mem_append.mp hb with hb | hb
      · rcases List.mem_append.mp hb with hb | hb
        · rcases List.mem_append.mp hb with hb | hb
          · rcases List.mem_append.mp hb with hb | hb
            · rcases List.mem_append.mp hb with hb | hb
              · rcases List.mem_singleton.mp hb with rfl
                exact hroot
              · exact mem_guard_one hb
            · exact mem_guard_one hb
          · exact mem_guard_one hb
        · exact mem_guard_one hb
      · exact mem_guard_one hb
    · exact mem_guard_one hb
  · exact mem_guard_one hb

lemma applySecondaryMotionWrites_present {bones : PoseBone → Bool}
    {b : PoseBone} (hb : b ∈ applySecondaryMotionWrites bones) :
    bones b = true := by
  have fallback : b ∈ (if bones PoseBone.trunk_mid1 then [PoseBone.trunk_mid1]
      else if bones PoseBone.trunk_mid then [PoseBone.trunk_mid] else []) →
      bones b = true := by
    intro hb2
    by_cases h1 : bones PoseBone.trunk_mid1 = true
    · rw [if_pos h1] at hb2
      rcases List.mem_singleton.mp hb2 with rfl
      exact h1
    · rw [if_neg h1] at hb2
      exact mem_guard_one hb2
  rcases List.mem_append.mp hb with hb | hb
  · rcases List.mem_append.mp hb with hb | hb
    · rcases List.mem_append.mp hb with hb | hb
      · rcases List.mem_append.mp hb with hb | hb
        · rcases List.mem_append.mp hb with hb | hb
          · rcases List.mem_append.mp hb with hb | hb
            · rcases List.mem_append.mp hb with hb | hb
              · rcases List.mem_append.mp hb with hb | hb
                · exact mem_guard_one hb
                · exact fallback hb
              · exact mem_guard_one hb
            · exact mem_guard_one hb
          · exact mem_guard_one hb
        · exact mem_guard_one hb
      · exact mem_guard_one hb
    · exact mem_guard_one hb
  · exact mem_guard_one hb

/-- C9 (amended): whenever the root bone `spine_base` is present, every
`update(dt)` call completes — the state machine, the active state's pose
synthesis and the spring motion all run (`ran = true`) — and no absent bone
is ever written (every written bone is present, so each missing optional bone
merely has its pose writes skipped); if instead `spine_base` itself is
missing, `update` returns at its opening guard without raising, running
nothing. -/
theorem locomotionUpdate_missing_bone_tolerance (bones : PoseBone → Bool)
    (state : LocState) (hroot : bones PoseBone.spine_base = true) :
    (locomotionUpdateTouches bones state).1 = true ∧
    (∀ b, b ∈ (locomotionUpdateTouches bones state).2 → bones b = true) ∧
    (∀ bones2 : PoseBone → Bool, bones2 PoseBone.spine_base = false →
      locomotionUpdateTouches bones2 state = (false, [])) := by
  refine ⟨?_, ?_, ?_⟩
  · rw [locomotionUpdateTouches.eq_def, if_pos hroot]
  · intro b hb
    rw [locomotionUpdateTouches.eq_def, if_pos hroot] at hb
    rcases List.mem_append.mp hb with hb | hb
    · cases state with
      | idle => exact updateIdleWrites_present hroot hb
      | wander => exact updateWalkWrites_present hroot hb
      | curious => exact updateCuriousWrites_present hroot hb
    · exact applySecondaryMotionWrites_present hb
  · intro bones2 h2
    rw [locomotionUpdateTouches.eq_def, if_neg (by simp [h2])]

/-- Witness for `locomotionUpdate_missing_bone_tolerance`: with the full bone
table in the `wander` state the update runs to completion. -/
theorem locomotionUpdate_missing_bone_tolerance_witness :
    (locomotionUpdateTouches allBones LocState.wander).1 = true :=
  (locomotionUpdate_missing_bone_tolerance allBones LocState.wander rfl).1

/-- The spec's spring-convergence experiment: `stiffness = 10`, `damping = 5`,
`dt = 0.016`, constant `target = 1.0`, iterated with `springStep` from
`angle = 0`, `velocity = 0` (exact rational arithmetic). -/
def springIterC8 : ℕ → Spring
  | 0 => { angle := 0, velocity := 0 }
  | n + 1 => springStep 1 (springIterC8 n) 0.016

set_option maxRecDepth 4000 in
attribute [local semireducible] Rat.add Rat.mul Rat.sub Rat.inv
  Rat.ofScientific in
/-- C8 counterexample: at step 102 the iterated spring angle *exceeds* the
target — it is above `1.01`, outside the 1% band it had already entered — so
the configuration is underdamped (`ζ = 5/(2·√10) ≈ 0.79 < 1`), not the
critically/over-damped regime the claim asserts: a critically or over-damped
spring started at rest below its target never crosses the target. -/
theorem springIterC8_overshoot_counterexample :
    1 + 1 / 100 < (springIterC8 102).angle := by decide

set_option maxRecDepth 8000 in
attribute [local semireducible] Rat.add Rat.mul Rat.sub Rat.inv
  Rat.ofScientific in
/-- C8 (amended): the configuration is underdamped and overshoots the target
by about 1.4% before settling; nevertheless, iterating sufficiently many
steps (here 200) drives the angle to within 1% of `1.0` and the velocity to
within `0.01` of `0`. -/
theorem springIterC8_converges :
    |(springIterC8 200).angle - 1| ≤ 1 / 100 ∧
    |(springIterC8 200).velocity| ≤ 1 / 100 := by decide

/-! ## Behaviour update guard (claim C10) -/

/-- JavaScript `%` on nonnegative reals: `x % y = x − y·⌊x/y⌋` (used by the
gait-phase wrap, whose operands are nonnegative). -/
noncomputable def jsMod (x y : ℝ) : ℝ := x - y * (⌊x / y⌋ : ℤ)

/-- The per-creature mutable state touched by `ElephantBehavior.update` and
`ElephantLocomotion.update`: behaviour clock, locomotion state and timers,
gait phase, spring channels, and the bone rotation components. -/
structure BehaviorState where
  time : ℚ
  state : LocState
  stateTimer : ℚ
  stateTime : ℚ
  gaitPhase : ℝ
  springs : Springs
  rot : PoseBone → ℚ

/-- `ElephantBehavior.update(dt)`: the guard `if (!dt || !this.skeleton ||
!this.mesh) return;` makes `dt = 0` a complete no-op (0 is falsy); otherwise
the clock advances, `ElephantLocomotion.update(dt)` runs the state machine
(`locomotionStateStep`), advances the gait phase in `wander`
(`gaitDuration = 1.1`), and applies the secondary spring motion. -/
noncomputable def behaviorUpdate (dt r u wanderSpeed : ℚ)
    (bones : PoseBone → Bool) (s : BehaviorState) : BehaviorState :=
  if dt = 0 then s
  else
    let out := locomotionStateStep s.state s.stateTimer s.stateTime dt r u
    let gait := if out.1 = LocState.wander then
        jsMod (s.gaitPhase + ((dt : ℝ) / 1.1) * (2 * Real.pi)) (2 * Real.pi)
      else s.gaitPhase
    let sm := applySecondaryMotion bones out.1 wanderSpeed dt s.springs s.rot
    { time := s.time + dt
      state := out.1
      stateTimer := out.2.1
      stateTime := out.2.2
      gaitPhase := gait
      springs := sm.1
      rot := sm.2 }

/-- C10: calling `behavior.update` with `deltaSeconds = 0` is a complete
no-op — the guard returns before touching anything, so the behaviour clock,
locomotion state, dwell timer, in-state clock, gait phase, spring
angles/velocities and bone rotations are all left unchanged. -/
theorem behaviorUpdate_zero_dt (r u ws : ℚ) (bones : PoseBone → Bool)
    (s : BehaviorState) : behaviorUpdate 0 r u ws bones s = s := by
  simp [behaviorUpdate]

/-! ## Variant scales (claim C7) -/

/-- `random01(s) = Math.abs(Math.sin(s * 43758.5453)) % 1`
(`ElephantGenerator.generate`); on a nonnegative operand, JS `% 1` is the
fractional part. -/
noncomputable def random01 (s : ℝ) : ℝ :=
  Int.fract |Real.sin (s * 43758.5453)|

/-- `variantFactor = random01(seed)`. -/
noncomputable def variantFactor (seed : ℝ) : ℝ := random01 seed

/-- `legScale = 1.0 + (variantFactor − 0.5) * 0.2`. -/
noncomputable def legScale (seed : ℝ) : ℝ :=
  1.0 + (variantFactor seed - 0.5) * 0.2

/-- `tuskScale = 1.0 + (variantFactor − 0.5) * 0.3`. -/
noncomputable def tuskScale (seed : ℝ) : ℝ :=
  1.0 + (variantFactor seed - 0.5) * 0.3

/-- `headScale = 1.0 + (0.5 − variantFactor) * 0.15`. -/
noncomputable def headScale (seed : ℝ) : ℝ :=
  1.0 + (0.5 - variantFactor seed) * 0.15

/-- C7: the variant factor is a deterministic pure function of the numeric
seed (equal seeds give equal factors; no random stream is consulted), and for
every seed the derived scales deviate from `1.0` by at most `0.1` (legs),
`0.15` (tusks) and `0.075` (head) — all inside the claimed `±10–15%` band. -/
theorem variantScales_deterministic_bounded (s t : ℝ) (hst : s = t) :
    variantFactor s = variantFactor t ∧
    |legScale s - 1| ≤ 0.1 ∧
    |tuskScale s - 1| ≤ 0.15 ∧
    |headScale s - 1| ≤ 0.075 ∧
    |legScale s - 1| ≤ 0.15 ∧
    |headScale s - 1| ≤ 0.15 := by
  subst hst
  have h0 : (0 : ℝ) ≤ variantFactor s := by
    simp only [variantFactor, random01]
    exact Int.fract_nonneg _
  have h1 : variantFactor s < 1 := by
    simp only [variantFactor, random01]
    exact Int.fract_lt_one _
  refine ⟨rfl, ?_, ?_, ?_, ?_, ?_⟩ <;>
    rw [abs_le] <;>
    constructor <;>
    simp only [legScale, tuskScale, headScale] <;>
    nlinarith [h0, h1]

/-- Witness for `variantScales_deterministic_bounded` at seed `0`. -/
theorem variantScales_deterministic_bounded_witness :
    |legScale 0 - 1| ≤ 0.1 :=
  (variantScales_deterministic_bounded 0 0 rfl).2.1

/-! ## Heading rotation and rate-limited turning (claim C6)

`ElephantLocomotion.rotateDirection` / `turnToward`.  The persisted heading
vector `this.direction` lives in the ground plane, so it is modelled by its
`(x, z)` components; `heading` is `Math.atan2(direction.x, direction.z)` as
used by `updateWalk`/`turnToward`. -/

/-- `Math.atan2(y, x)` (zero at `(0, 0)`, as in JavaScript). -/
noncomputable def atan2 (y x : ℝ) : ℝ :=
  if 0 < x then Real.arctan (y / x)
  else if x < 0 then
    (if 0 ≤ y then Real.arctan (y / x) + Real.pi
     else Real.arctan (y / x) - Real.pi)
  else
    (if 0 < y then Real.pi / 2
     else if y < 0 then -(Real.pi / 2)
     else 0)

/-- The ground-plane heading vector `this.direction` (`(x, z)` components). -/
structure Dir2 where
  x : ℝ
  z : ℝ

/-- `Math.atan2(this.direction.x, this.direction.z)`. -/
noncomputable def heading (d : Dir2) : ℝ := atan2 d.x d.z

/-- `THREE.Vector3.normalize` restricted to the ground plane (divides by
`length || 1`; the zero vector is unchanged). -/
noncomputable def dirNormalize (d : Dir2) : Dir2 :=
  let len := Real.sqrt (d.x * d.x + d.z * d.z)
  if len = 0 then d else { x := d.x / len, z := d.z / len }

/-- `rotateDirection(angle)`: rotate the `(x, z)` heading by `angle` and
re-normalize. -/
noncomputable def rotateDirection (d : Dir2) (angle : ℝ) : Dir2 :=
  dirNormalize
    { x := d.x * Real.cos angle - d.z * Real.sin angle
      z := d.x * Real.sin angle + d.z * Real.cos angle }

/-- `THREE.MathUtils.clamp(value, min, max) = Math.max(min, Math.min(max,
value))`. -/
noncomputable def clamp (v lo hi : ℝ) : ℝ := max lo (min hi v)

/-- The two sequential wrap `if`s of `turnToward`: `if (delta > π) delta −=
2π; if (delta < −π) delta += 2π`. -/
noncomputable def wrapPi (delta : ℝ) : ℝ :=
  let d1 := if delta > Real.pi then delta - Real.pi * 2 else delta
  if d1 < -Real.pi then d1 + Real.pi * 2 else d1

/-- The clamped, wrapped angular delta computed by `turnToward(targetDir,
dt)` before it is applied. -/
noncomputable def turnTowardDelta (d target : Dir2) (turnRate dt : ℝ) : ℝ :=
  clamp (wrapPi (heading target - heading d)) (-(turnRate * dt))
    (turnRate * dt)

/-- `turnToward(targetDir, dt)`: apply the clamped delta via
`rotateDirection`. -/
noncomputable def turnToward (d target : Dir2) (turnRate dt : ℝ) : Dir2 :=
  rotateDirection d (turnTowardDelta d target turnRate dt)

lemma atan2_mem_Ioc (y x : ℝ) : atan2 y x ∈ Set.Ioc (-Real.pi) Real.pi := by
  have hπ := Real.pi_pos
  have hlt : ∀ z : ℝ, Real.arctan z < Real.pi / 2 :=
    Real.arctan_lt_pi_div_two
  have hgt : ∀ z : ℝ, -(Real.pi / 2) < Real.arctan z :=
    Real.neg_pi_div_two_lt_arctan
  have hmono : Monotone Real.arctan := Real.arctan_strictMono.monotone
  rw [atan2, Set.mem_Ioc]
  split_ifs with h1 h2 h3 h4 h5
  · exact ⟨by linarith [hgt (y / x)], by linarith [hlt (y / x)]⟩
  · have hyx : y / x ≤ 0 := div_nonpos_of_nonneg_of_nonpos h3 h2.le
    have : Real.arctan (y / x) ≤ 0 := by
      have := hmono hyx
      rwa [Real.arctan_zero] at this
    exact ⟨by linarith [hgt (y / x)], by linarith⟩
  · have hy : y < 0 := lt_of_not_ge h3
    have hyx : 0 < y / x := div_pos_of_neg_of_neg hy h2
    have : 0 < Real.arctan (y / x) := by
      have := Real.arctan_strictMono hyx
      rwa [Real.arctan_zero] at this
    exact ⟨by linarith, by linarith [hlt (y / x)]⟩
  · exact ⟨by linarith, by linarith⟩
  · exact ⟨by linarith, by linarith⟩
  · exact ⟨by linarith, by linarith⟩

lemma wrapPi_spec (δ : ℝ) (h1 : -(2 * Real.pi) < δ) (h2 : δ < 2 * Real.pi) :
    wrapPi δ ∈ Set.Icc (-Real.pi) Real.pi ∧
      (wrapPi δ = δ ∨ wrapPi δ = δ - 2 * Real.pi ∨
        wrapPi δ = δ + 2 * Real.pi) := by
  have hπ := Real.pi_pos
  rw [wrapPi]
  by_cases hA : δ > Real.pi
  · rw [if_pos hA, if_neg (by linarith : ¬ δ - Real.pi * 2 < -Real.pi)]
    exact ⟨⟨by linarith, by linarith⟩, Or.inr (Or.inl (by ring))⟩
  · rw [if_neg hA]
    by_cases hB : δ < -Real.pi
    · rw [if_pos hB]
      exact ⟨⟨by linarith, by linarith⟩, Or.inr (Or.inr (by ring))⟩
    · rw [if_neg hB]
      exact ⟨⟨le_of_not_lt hB, le_of_not_lt hA⟩, Or.inl rfl⟩

lemma clamp_abs_le (v m : ℝ) (hm : 0 ≤ m) : |clamp v (-m) m| ≤ m := by
  rw [clamp, abs_le]
  constructor
  · exact le_max_left _ _
  · exact max_le (by linarith) (min_le_left _ _)

lemma heading_unitZ : heading ⟨0, 1⟩ = 0 := by
  rw [heading, atan2]
  norm_num

lemma heading_negZ : heading ⟨0, -1⟩ = Real.pi := by
  rw [heading, atan2]
  norm_num

/-- C6 counterexample: from current heading `π` (direction `(0, 0, −1)`)
toward target heading `0` (direction `(0, 0, 1)`), the raw delta is `−π`, and
the two wrap `if`s of `turnToward` leave it at `−π`; with `turnRate·dt = 4`
the clamp keeps it, so the computed delta is `−π ∉ (−π, π]` — the code's wrap
range is `[−π, π]`, attaining the excluded left endpoint on the antipodal
tie, not the claimed `(−π, π]`. -/
theorem turnToward_wrap_endpoint_counterexample :
    turnTowardDelta ⟨0, -1⟩ ⟨0, 1⟩ 4 1 = -Real.pi ∧
    -Real.pi ∉ Set.Ioc (-Real.pi) Real.pi := by
  have hπ := Real.pi_pos
  have hπ4 := Real.pi_lt_four
  constructor
  · rw [turnTowardDelta, heading_unitZ, heading_negZ]
    rw [show (0 : ℝ) - Real.pi = -Real.pi from by ring]
    have hwrap : wrapPi (-Real.pi) = -Real.pi := by
      rw [wrapPi, if_neg (by linarith : ¬ -Real.pi > Real.pi),
        if_neg (lt_irrefl _)]
    rw [hwrap, clamp, min_eq_right (by linarith : -Real.pi ≤ (4 : ℝ) * 1),
      max_eq_right (by linarith : -((4 : ℝ) * 1) ≤ -Real.pi)]
  · rw [Set.mem_Ioc]
    push_neg
    intro h
    exact absurd h (lt_irrefl _)

lemma cos_04_pos : (0 : ℝ) < Real.cos 0.4 := by
  have h3 := Real.pi_gt_three
  apply Real.cos_pos_of_mem_Ioo
  rw [Set.mem_Ioo]
  constructor <;> linarith

lemma rotateDirection_unitZ_04 :
    rotateDirection ⟨0, 1⟩ (0.4 : ℝ) =
      ⟨-Real.sin 0.4, Real.cos 0.4⟩ := by
  have harg : (0 * Real.cos (0.4 : ℝ) - 1 * Real.sin 0.4) *
        (0 * Real.cos (0.4 : ℝ) - 1 * Real.sin 0.4) +
      (0 * Real.sin (0.4 : ℝ) + 1 * Real.cos 0.4) *
        (0 * Real.sin (0.4 : ℝ) + 1 * Real.cos 0.4) = 1 := by
    have h := Real.sin_sq_add_cos_sq (0.4 : ℝ)
    nlinarith [h]
  rw [rotateDirection, dirNormalize]
  simp only [harg, Real.sqrt_one]
  norm_num

lemma heading_after_04 :
    heading ⟨-Real.sin 0.4, Real.cos 0.4⟩ = -(0.4 : ℝ) := by
  have h3 := Real.pi_gt_three
  rw [heading, atan2, if_pos cos_04_pos,
    show -Real.sin (0.4 : ℝ) / Real.cos 0.4 =
      -(Real.sin 0.4 / Real.cos 0.4) from neg_div _ _,
    ← Real.tan_eq_sin_div_cos, ← Real.tan_neg,
    Real.arctan_tan (by linarith) (by linarith)]

/-- C6 (amended): `turnToward` computes the signed shortest angular delta
between current and target headings, wrapped by the two `if`s into `[−π, π]`
(the left endpoint `−π` is attained on the exact antipodal tie, otherwise the
result lies in `(−π, π]`), clamps it to `[−turnRate·dt, +turnRate·dt]`, and
applies it via `rotateDirection`; in particular with `turnRate = 0.4`,
`dt = 1`, current heading `0` and target heading `π`, the heading advances by
exactly `0.4` radians (to `−0.4`, the two directions being equidistant from
`π`), not directly to `π`. -/
theorem turnToward_spec :
    (∀ d : Dir2, heading d ∈ Set.Ioc (-Real.pi) Real.pi) ∧
    (∀ d target : Dir2,
      wrapPi (heading target - heading d) ∈ Set.Icc (-Real.pi) Real.pi ∧
      (wrapPi (heading target - heading d) = heading target - heading d ∨
       wrapPi (heading target - heading d) =
         heading target - heading d - 2 * Real.pi ∨
       wrapPi (heading target - heading d) =
         heading target - heading d + 2 * Real.pi)) ∧
    (∀ (d target : Dir2) (turnRate dt : ℝ), 0 ≤ turnRate * dt →
      |turnTowardDelta d target turnRate dt| ≤ turnRate * dt) ∧
    (∀ (d target : Dir2) (turnRate dt : ℝ),
      turnToward d target turnRate dt =
        rotateDirection d (turnTowardDelta d target turnRate dt)) ∧
    heading ⟨0, 1⟩ = 0 ∧
    heading ⟨0, -1⟩ = Real.pi ∧
    turnToward ⟨0, 1⟩ ⟨0, -1⟩ 0.4 1 = ⟨-Real.sin 0.4, Real.cos 0.4⟩ ∧
    heading (turnToward ⟨0, 1⟩ ⟨0, -1⟩ 0.4 1) = -(0.4 : ℝ) ∧
    |heading (turnToward ⟨0, 1⟩ ⟨0, -1⟩ 0.4 1) - heading ⟨0, 1⟩| =
      (0.4 : ℝ) ∧
    heading (turnToward ⟨0, 1⟩ ⟨0, -1⟩ 0.4 1) ≠ Real.pi := by
  have hπ := Real.pi_pos
  have h3 := Real.pi_gt_three
  have hconc : turnToward ⟨0, 1⟩ ⟨0, -1⟩ 0.4 1 =
      ⟨-Real.sin 0.4, Real.cos 0.4⟩ := by
    have hdelta : turnTowardDelta ⟨0, 1⟩ ⟨0, -1⟩ 0.4 1 = (0.4 : ℝ) := by
      rw [turnTowardDelta, heading_unitZ, heading_negZ, sub_zero]
      have hwrap : wrapPi Real.pi = Real.pi := by
        rw [wrapPi, if_neg (lt_irrefl _), if_neg (by linarith)]
      rw [hwrap, clamp, min_eq_left (by norm_num; linarith),
        max_eq_right (by norm_num)]
      norm_num
    rw [turnToward, hdelta]
    exact rotateDirection_unitZ_04
  refine ⟨?_, ?_, ?_, fun d t r dtv => rfl, heading_unitZ, heading_negZ,
    hconc, ?_, ?_, ?_⟩
  · intro d
    exact atan2_mem_Ioc d.x d.z
  · intro d target
    have hd := atan2_mem_Ioc d.x d.z
    have ht := atan2_mem_Ioc target.x target.z
    rw [Set.mem_Ioc] at hd ht
    exact wrapPi_spec _ (by rw [heading, heading]; linarith)
      (by rw [heading, heading]; linarith)
  · intro d target r dtv h
    exact clamp_abs_le _ _ h
  · rw [hconc]
    exact heading_after_04
  · rw [hconc, heading_after_04, heading_unitZ]
    rw [sub_zero, abs_neg, abs_of_nonneg (by norm_num : (0 : ℝ) ≤ 0.4)]
  · rw [hconc, heading_after_04]
    intro h
    rw [← h] at h3
    norm_num at h3

/-- Witness for `turnToward_spec`: the clamp bound instantiated at the
concrete scenario (`|delta| ≤ 0.4·1`). -/
theorem turnToward_spec_witness :
    |turnTowardDelta ⟨0, 1⟩ ⟨0, -1⟩ 0.4 1| ≤ (0.4 : ℝ) * 1 :=
  turnToward_spec.2.2.1 ⟨0, 1⟩ ⟨0, -1⟩ 0.4 1 (by norm_num)

end Zoo
